import Mathlib

/-!
Shallow embedding of the `temp-write-sync` library (index.js): a synchronous
temporary-file writer with a process-wide registry of tracked paths
(`tempFiles : Set`), an idempotent cleanup routine and one-time process-exit
hook installation.

The filesystem is modelled as an explicit state (`FSState`) with oracles for
which primitive operations fail; the module-level mutable state
(`tempFiles`, `cleanupRegistered`) is `ModState`.  JavaScript values passed to
the API are modelled by `JSVal`.  Nondeterministic inputs of the code
(`crypto.randomBytes(6).toString('hex')` and `Date.now().toString(36)`) are
passed in as explicit string parameters.
-/

/-- Model of the JavaScript values handed to the library's entry points. -/
inductive JSVal where
  | vnull
  | vundefined
  | vbool (b : Bool)
  | vnum (n : Int)
  | vstr (s : String)
  | varr (elems : List JSVal)
  | vobj (fields : List (String × JSVal))
  deriving Repr

namespace JSVal

/-- The JavaScript test `v === null`. -/
def isNull : JSVal → Bool
  | vnull => true
  | _ => false

/-- The JavaScript test `v === null || v === undefined`. -/
def isNullish : JSVal → Bool
  | vnull => true
  | vundefined => true
  | _ => false

/-- JavaScript `Array.isArray`. -/
def isArr : JSVal → Bool
  | varr _ => true
  | _ => false

/-- JavaScript `typeof` (note `typeof null === 'object'`). -/
def jsTypeof : JSVal → String
  | vnull => "object"
  | vundefined => "undefined"
  | vbool _ => "boolean"
  | vnum _ => "number"
  | vstr _ => "string"
  | varr _ => "object"
  | vobj _ => "object"

/-- JavaScript truthiness of a value. -/
def truthy : JSVal → Bool
  | vnull => false
  | vundefined => false
  | vbool b => b
  | vnum n => n != 0
  | vstr s => s != ""
  | varr _ => true
  | vobj _ => true

end JSVal

mutual

/-- JavaScript `String(v)` coercion (arrays join their elements with commas,
objects print as `[object Object]`). -/
def jsToString : JSVal → String
  | .vnull => "null"
  | .vundefined => "undefined"
  | .vbool b => if b then "true" else "false"
  | .vnum n => toString n
  | .vstr s => s
  | .vobj _ => "[object Object]"
  | .varr xs => String.intercalate "," (jsToStringList xs)

/-- Elements of an array under `String(...)`: `null`/`undefined` render empty. -/
def jsToStringList : List JSVal → List String
  | [] => []
  | .vnull :: rest => "" :: jsToStringList rest
  | .vundefined :: rest => "" :: jsToStringList rest
  | v :: rest => jsToString v :: jsToStringList rest

end

/-- JavaScript property access `v[key]`: throws a `TypeError` on `null` and
`undefined`, yields `undefined` for absent keys and non-object receivers. -/
def jsGet : JSVal → String → Except String JSVal
  | .vnull, _ => .error "TypeError: Cannot read properties of null"
  | .vundefined, _ => .error "TypeError: Cannot read properties of undefined"
  | .vobj fields, h =>
      .ok (match fields.lookup h with
           | some v => v
           | none => .vundefined)
  | _, _ => .ok .vundefined

/-- `String.prototype.startsWith` modelled on character lists. -/
def strStartsWith (s pre : String) : Bool :=
  pre.data.isPrefixOf s.data

/-- First-occurrence replacement on character lists, the semantics of
JavaScript `String.prototype.replace(string, string)`. -/
def replaceFirstL (s pat rep : List Char) : List Char :=
  match s with
  | [] => if pat = [] then rep else []
  | c :: rest =>
      if pat.isPrefixOf (c :: rest) then rep ++ (c :: rest).drop pat.length
      else c :: replaceFirstL rest pat rep

/-- JavaScript `s.replace(pat, rep)` with a string pattern: replaces only the
first occurrence. -/
def replaceFirst (s pat rep : String) : String :=
  ⟨replaceFirstL s.data pat.data rep.data⟩

/-- Whether `pat` occurs as a contiguous substring of `s`. -/
def hasSub (s pat : List Char) : Bool :=
  if pat.isPrefixOf s then true
  else
    match s with
    | [] => false
    | _ :: rest => hasSub rest pat

/-- The global-regex replacement `String(cell).replace(/"/g, '""')`:
every quote character is doubled. -/
def escapeQuotes (s : String) : String :=
  ⟨(s.data.map (fun c => if c = '"' then ['"', '"'] else [c])).flatten⟩

/-- A CSV cell as produced by the code: stringified, quote-doubled, quoted. -/
def quoteCell (v : JSVal) : String :=
  "\"" ++ escapeQuotes (jsToString v) ++ "\""

/-- Insertion into a JavaScript `Set` (insertion order kept, no duplicates). -/
def setAdd (s : List String) (p : String) : List String :=
  if p ∈ s then s else s ++ [p]

/-- Deletion from a JavaScript `Set`. -/
def setDel (s : List String) (p : String) : List String :=
  s.filter (fun q => q ≠ p)

/-- `path.join(dir, name)` modelled as the thin primitive it is in the spec. -/
def pathJoin (dir name : String) : String :=
  dir ++ "/" ++ name

/-- Model of `path.extname`: the suffix from the last dot of the base name
(`"foo.txt" ↦ ".txt"`, `"foo" ↦ ""`, `".bashrc" ↦ ""`). -/
def extname (p : String) : String :=
  let base := (p.splitOn "/").getLastD ""
  let parts := base.splitOn "."
  if parts.length ≤ 1 then ""
  else if parts.headD "" = "" ∧ parts.length = 2 then ""
  else "." ++ parts.getLastD ""

/-- Filesystem state: which paths exist, which existing paths are directories,
and oracles for which primitive operations fail (permissions, races). -/
structure FSState where
  live : List String
  dirs : List String
  mkdirFails : List String
  writeFails : List String
  rmFails : List String
  deriving DecidableEq, Repr

/-- Module-level mutable state of index.js: the `tempFiles` set (insertion
order), the `cleanupRegistered` flag, and a count of how many times the hook
installation body has run (to state the at-most-once property). -/
structure ModState where
  tempFiles : List String
  cleanupRegistered : Bool
  hookInstalls : Nat
  deriving DecidableEq, Repr

/-- Module state at process start. -/
def initMod : ModState :=
  { tempFiles := [], cleanupRegistered := false, hookInstalls := 0 }

/-- The options object destructured by the entry points. -/
structure WriteOptions where
  dir : String := "/tmp"
  pre : String := "temp-"
  cleanup : Bool := true
  mode : Nat := 0o600
  delimiter : String := ","
  deriving DecidableEq, Repr

/-- `if (!fs.existsSync(dir)) fs.mkdirSync(dir, { recursive: true })`. -/
def ensureDir (fs : FSState) (dir : String) : Except String FSState :=
  if dir ∈ fs.live then .ok fs
  else if dir ∈ fs.mkdirFails then .error "mkdir failed"
  else .ok { fs with live := setAdd fs.live dir, dirs := setAdd fs.dirs dir }

/-- `fs.writeFileSync(filePath, content, { mode })` as a primitive with a
failure oracle; on success the path exists as a plain file. -/
def fsWrite (fs : FSState) (p : String) : Except String FSState :=
  if p ∈ fs.writeFails then .error "write failed"
  else .ok { fs with live := setAdd fs.live p }

/-- `registerCleanup()` (index.js lines 232-269): guarded by the
`cleanupRegistered` flag; on the first call it installs the process-exit,
signal and fault handlers (counted by `hookInstalls`) and sets the flag. -/
def registerCleanup (st : ModState) : ModState :=
  if st.cleanupRegistered then st
  else { st with cleanupRegistered := true, hookInstalls := st.hookInstalls + 1 }

/-- `extension && !extension.startsWith('.') → '.' + extension`
(index.js lines 38-41). -/
def normalizeExt (ext : String) : String :=
  if ext ≠ "" ∧ strStartsWith ext "." = false then "." ++ ext else ext

/-- `tempWriteSync(content, extension, options)` (index.js lines 21-68).
Validation errors surface unwrapped; I/O failures are caught and rewrapped;
on success with `cleanup` the path is registered after hook installation.
Returns the new filesystem and module states together with the result. -/
def tempWriteSync (fs : FSState) (st : ModState) (content : JSVal)
    (extension : JSVal) (opts : WriteOptions) (randomId timestamp : String) :
    FSState × ModState × Except String String :=
  if content.isNullish then
    (fs, st, .error "Content cannot be null or undefined")
  else
    match extension with
    | .vstr ext =>
        let ext1 := normalizeExt ext
        let filename := opts.pre ++ timestamp ++ "-" ++ randomId ++ ext1
        let filePath := pathJoin opts.dir filename
        match ensureDir fs opts.dir with
        | .error e => (fs, st, .error ("Failed to write temporary file: " ++ e))
        | .ok fs1 =>
            match fsWrite fs1 filePath with
            | .error e => (fs1, st, .error ("Failed to write temporary file: " ++ e))
            | .ok fs2 =>
                if opts.cleanup then
                  let st1 := registerCleanup st
                  (fs2, { st1 with tempFiles := setAdd st1.tempFiles filePath },
                   .ok filePath)
                else (fs2, st, .ok filePath)
    | _ => (fs, st, .error "Extension must be a string")

/-- `tempWriteJsonSync(obj, options)` (index.js lines 76-83); the serialized
text `JSON.stringify(obj, null, 2)` is taken as a primitive input. -/
def tempWriteJsonSync (fs : FSState) (st : ModState) (v : JSVal)
    (serialized : String) (opts : WriteOptions) (randomId timestamp : String) :
    FSState × ModState × Except String String :=
  if v.jsTypeof ≠ "object" ∨ v.isNull = true then
    (fs, st, .error "Input must be a valid object")
  else tempWriteSync fs st (.vstr serialized) (.vstr ".json") opts randomId timestamp

/-- A row of the array-of-arrays CSV branch: `row.map(cell => ...)` throws a
`TypeError` when the row is not an array. -/
def arrRow (delim : String) : JSVal → Except String String
  | .varr cells => .ok (String.intercalate delim (cells.map quoteCell))
  | _ => .error "TypeError: row.map is not a function"

/-- A row of the array-of-objects CSV branch:
`headers.map(h => quote(String(row[h] || '')))`. -/
def objRow (delim : String) (headers : List String) (row : JSVal) :
    Except String String :=
  (headers.mapM (fun h =>
      (jsGet row h).map (fun v =>
        quoteCell (if v.truthy then v else .vstr "")))).map
    (String.intercalate delim)

/-- The CSV formatting of `tempWriteCsvSync` (index.js lines 95-118): the
shape dispatch inspects only `data[0]`; headers come from the first object's
keys and are quoted without escaping. -/
def csvFormat (data : JSVal) (delim : String) : Except String String :=
  match data with
  | .varr rows =>
      match rows with
      | [] => .ok ""
      | first :: _ =>
          if first.isArr then
            (rows.mapM (arrRow delim)).map (String.intercalate "\n")
          else if first.jsTypeof = "object" then
            match first with
            | .vobj fields =>
                let headers := fields.map Prod.fst
                let headerRow :=
                  String.intercalate delim (headers.map (fun h => "\"" ++ h ++ "\""))
                (rows.mapM (objRow delim headers)).map
                  (fun dataRows => String.intercalate "\n" (headerRow :: dataRows))
            | _ => .error "TypeError: Cannot convert undefined or null to object"
          else .error "Invalid CSV data format"
  | _ => .error "CSV data must be an array"

/-- `tempWriteCsvSync(data, options)` (index.js lines 92-121): formats, then
delegates to `tempWriteSync` with extension `.csv`.  Formatting errors are
thrown before any I/O or registration. -/
def tempWriteCsvSync (fs : FSState) (st : ModState) (data : JSVal)
    (opts : WriteOptions) (randomId timestamp : String) :
    FSState × ModState × Except String String :=
  match csvFormat data opts.delimiter with
  | .error e => (fs, st, .error e)
  | .ok content =>
      tempWriteSync fs st (.vstr content) (.vstr ".csv") opts randomId timestamp

/-- `tempDirSync(options)` (index.js lines 131-155). -/
def tempDirSync (fs : FSState) (st : ModState) (opts : WriteOptions)
    (randomId timestamp : String) : FSState × ModState × Except String String :=
  let dirName := opts.pre ++ timestamp ++ "-" ++ randomId
  let dirPath := pathJoin opts.dir dirName
  if dirPath ∈ fs.mkdirFails then
    (fs, st, .error "Failed to create temporary directory: mkdir failed")
  else
    let fs1 := { fs with live := setAdd fs.live dirPath,
                         dirs := setAdd fs.dirs dirPath }
    if opts.cleanup then
      let st1 := registerCleanup st
      (fs1, { st1 with tempFiles := setAdd st1.tempFiles dirPath }, .ok dirPath)
    else (fs1, st, .ok dirPath)

/-- `cleanupSync(filePath)` (index.js lines 162-180): if the path exists it is
removed (recursively for directories); any removal failure is caught and
reported as `false`.  The registry deletion sits inside the `try`, after the
removal, so it runs only when no exception was thrown. -/
def cleanupSync (fs : FSState) (st : ModState) (p : String) :
    FSState × ModState × Bool :=
  if p ∈ fs.live then
    if p ∈ fs.rmFails then (fs, st, false)
    else
      let fs1 :=
        if p ∈ fs.dirs then
          { fs with
              live := fs.live.filter
                (fun q => ¬(q = p ∨ strStartsWith q (p ++ "/") = true)),
              dirs := fs.dirs.filter
                (fun q => ¬(q = p ∨ strStartsWith q (p ++ "/") = true)) }
        else { fs with live := setDel fs.live p }
      (fs1, { st with tempFiles := setDel st.tempFiles p }, true)
  else (fs, { st with tempFiles := setDel st.tempFiles p }, true)

/-- The `for (const filePath of tempFiles)` loop body of `cleanupAllSync`:
successive `cleanupSync` calls, counting the `true` results. -/
def cleanupAllLoop (fs : FSState) (st : ModState) :
    List String → FSState × ModState × Nat
  | [] => (fs, st, 0)
  | p :: rest =>
      let r1 := cleanupSync fs st p
      let r2 := cleanupAllLoop r1.1 r1.2.1 rest
      (r2.1, r2.2.1, if r1.2.2 then r2.2.2 + 1 else r2.2.2)

/-- `cleanupAllSync()` (index.js lines 186-197): iterates over the tracked
set, then unconditionally `tempFiles.clear()`, returning the success count. -/
def cleanupAllSync (fs : FSState) (st : ModState) : FSState × ModState × Nat :=
  let r := cleanupAllLoop fs st st.tempFiles
  (r.1, { r.2.1 with tempFiles := [] }, r.2.2)

/-- `getTempFiles()` (index.js lines 203-205). -/
def getTempFiles (st : ModState) : List String :=
  st.tempFiles

/-- `tempCopySync(sourcePath, extension, options)` (index.js lines 214-227);
the bytes read from the source are a primitive input (`content`). -/
def tempCopySync (fs : FSState) (st : ModState) (src : String)
    (content : JSVal) (extension : JSVal) (opts : WriteOptions)
    (randomId timestamp : String) : FSState × ModState × Except String String :=
  if src ∉ fs.live then
    (fs, st, .error ("Source file does not exist: " ++ src))
  else
    let ext := if extension.truthy then extension else .vstr (extname src)
    tempWriteSync fs st content ext opts randomId timestamp

/-- `excludeFromCleanup(filePath)` (index.js lines 275-277). -/
def excludeFromCleanup (st : ModState) (p : String) : ModState :=
  { st with tempFiles := setDel st.tempFiles p }

/-- `isTempFile(filePath)` (index.js lines 284-286). -/
def isTempFile (st : ModState) (p : String) : Bool :=
  p ∈ st.tempFiles

/-- The filename built by `tempWritePatternSync` (index.js lines 301-304):
string `replace` of `{random}`, `{timestamp}`, `{time}` in that order. -/
def patternFilename (pat randomId timestamp : String) : String :=
  replaceFirst (replaceFirst (replaceFirst pat "{random}" randomId)
    "{timestamp}" timestamp) "{time}" timestamp

/-- `tempWritePatternSync(content, pattern, options)` (index.js lines
295-324): no content validation; write, then conditional registration. -/
def tempWritePatternSync (fs : FSState) (st : ModState) (content : JSVal)
    (pat : String) (opts : WriteOptions) (randomId timestamp : String) :
    FSState × ModState × Except String String :=
  let filename := patternFilename pat randomId timestamp
  let filePath := pathJoin opts.dir filename
  match ensureDir fs opts.dir with
  | .error e => (fs, st, .error ("Failed to write temporary file: " ++ e))
  | .ok fs1 =>
      match fsWrite fs1 filePath with
      | .error e => (fs1, st, .error ("Failed to write temporary file: " ++ e))
      | .ok fs2 =>
          if opts.cleanup then
            let st1 := registerCleanup st
            (fs2, { st1 with tempFiles := setAdd st1.tempFiles filePath },
             .ok filePath)
          else (fs2, st, .ok filePath)

/-! ## Helper lemmas -/

theorem setDel_not_mem (s : List String) (p : String) : p ∉ setDel s p := by
  simp [setDel, List.mem_filter]

theorem setDel_idem (s : List String) (p : String) :
    setDel (setDel s p) p = setDel s p := by
  simp [setDel, List.filter_filter]

theorem setDel_nil_of_nil (p : String) : setDel [] p = [] := rfl

theorem cleanupSync_not_live (fs : FSState) (st : ModState) (p : String)
    (h : p ∉ fs.live) :
    cleanupSync fs st p = (fs, { st with tempFiles := setDel st.tempFiles p }, true) := by
  unfold cleanupSync
  rw [if_neg h]

theorem cleanupSync_rmFails_eq (fs : FSState) (st : ModState) (p : String) :
    (cleanupSync fs st p).1.rmFails = fs.rmFails := by
  unfold cleanupSync
  split <;> [skip; rfl]
  split <;> [rfl; skip]
  split <;> rfl

theorem cleanupSync_succeeds_not_live (fs : FSState) (st : ModState) (p : String)
    (h : (cleanupSync fs st p).2.2 = true) : p ∉ (cleanupSync fs st p).1.live := by
  unfold cleanupSync at *
  by_cases hl : p ∈ fs.live
  · rw [if_pos hl] at h ⊢
    by_cases hr : p ∈ fs.rmFails
    · rw [if_pos hr] at h; simp at h
    · rw [if_neg hr] at h ⊢
      by_cases hd : p ∈ fs.dirs
      · simp only [if_pos hd, List.mem_filter]
        intro hmem
        have := hmem.2
        simp at this
      · simp only [if_neg hd]
        exact setDel_not_mem _ _
  · rw [if_neg hl]
    exact hl

theorem cleanupSync_flag_eq (fs : FSState) (st : ModState) (p : String) :
    (cleanupSync fs st p).2.1.cleanupRegistered = st.cleanupRegistered ∧
    (cleanupSync fs st p).2.1.hookInstalls = st.hookInstalls := by
  unfold cleanupSync
  split
  · split
    · exact ⟨rfl, rfl⟩
    · exact ⟨rfl, rfl⟩
  · exact ⟨rfl, rfl⟩

theorem cleanupSync_success_eq (fs : FSState) (st : ModState) (p : String)
    (h : (cleanupSync fs st p).2.2 = true) :
    (cleanupSync fs st p).2.1 = { st with tempFiles := setDel st.tempFiles p } := by
  unfold cleanupSync at *
  by_cases hl : p ∈ fs.live
  · rw [if_pos hl] at h ⊢
    by_cases hr : p ∈ fs.rmFails
    · rw [if_pos hr] at h; simp at h
    · rw [if_neg hr]
  · rw [if_neg hl]

theorem cleanupSync_tempFiles_sub (fs : FSState) (st : ModState) (p : String) :
    (cleanupSync fs st p).2.1.tempFiles = st.tempFiles ∨
    (cleanupSync fs st p).2.1.tempFiles = setDel st.tempFiles p := by
  unfold cleanupSync
  split
  · split
    · exact Or.inl rfl
    · exact Or.inr rfl
  · exact Or.inr rfl

/-! ### C1 -/

/-- C1 (amended): after `cleanupOne(path)` the registry holds the deletion of
`path` exactly when the call returned `true`; on a failed removal the registry
is unchanged and the path stays tracked. -/
theorem cleanupSync_registry_iff_returned_true (fs : FSState) (st : ModState)
    (p : String) :
    (cleanupSync fs st p).2.1.tempFiles =
      (if (cleanupSync fs st p).2.2 then setDel st.tempFiles p else st.tempFiles) ∧
    isTempFile (cleanupSync fs st p).2.1 p =
      (!(cleanupSync fs st p).2.2 && isTempFile st p) := by
  unfold cleanupSync isTempFile
  by_cases hl : p ∈ fs.live
  · rw [if_pos hl]
    by_cases hr : p ∈ fs.rmFails
    · rw [if_pos hr]
      simp
    · rw [if_neg hr]
      simp [setDel_not_mem]
  · rw [if_neg hl]
    simp [setDel_not_mem]

/-- C1 (counterexample): a path whose removal fails (`rmFails`) is still
tracked after `cleanupOne`, and the call reported failure — refuting the claim
that the path is unconditionally unregistered after the attempt. -/
theorem cleanupSync_failed_removal_keeps_tracking :
    (cleanupSync ⟨["/tmp/f"], [], [], [], ["/tmp/f"]⟩ ⟨["/tmp/f"], true, 1⟩
        "/tmp/f").2.2 = false ∧
    isTempFile (cleanupSync ⟨["/tmp/f"], [], [], [], ["/tmp/f"]⟩ ⟨["/tmp/f"], true, 1⟩
        "/tmp/f").2.1 "/tmp/f" = true := by
  constructor <;> decide

/-! ### C4 -/

/-- C4: `cleanupOne` of a path that does not exist on the filesystem returns
`true` without raising (the embedding is a total function returning `Bool`),
and a second cleanup of the same path after any successful cleanup is a no-op
that again returns `true`. -/
theorem cleanupSync_missing_path_returns_true (fs : FSState) (st : ModState)
    (p : String) (h : p ∉ fs.live) :
    cleanupSync fs st p = (fs, { st with tempFiles := setDel st.tempFiles p }, true) ∧
    ∀ fs2 st2 q, (cleanupSync fs2 st2 q).2.2 = true →
      cleanupSync (cleanupSync fs2 st2 q).1 (cleanupSync fs2 st2 q).2.1 q =
        ((cleanupSync fs2 st2 q).1, (cleanupSync fs2 st2 q).2.1, true) := by
  refine ⟨cleanupSync_not_live fs st p h, ?_⟩
  intro fs2 st2 q hq
  have hnl : q ∉ (cleanupSync fs2 st2 q).1.live :=
    cleanupSync_succeeds_not_live fs2 st2 q hq
  have hst : (cleanupSync fs2 st2 q).2.1 =
      { st2 with tempFiles := setDel st2.tempFiles q } :=
    cleanupSync_success_eq fs2 st2 q hq
  rw [cleanupSync_not_live _ _ _ hnl]
  have h2 : ({ (cleanupSync fs2 st2 q).2.1 with
        tempFiles := setDel ((cleanupSync fs2 st2 q).2.1).tempFiles q } : ModState) =
      (cleanupSync fs2 st2 q).2.1 := by
    rw [hst]
    simp [setDel_idem]
  rw [h2]

/-! ### C10 -/

theorem cleanupAllLoop_count_le (L : List String) :
    ∀ fs st, (cleanupAllLoop fs st L).2.2 ≤ L.length := by
  induction L with
  | nil => intro fs st; simp [cleanupAllLoop]
  | cons p rest ih =>
      intro fs st
      unfold cleanupAllLoop
      have := ih (cleanupSync fs st p).1 (cleanupSync fs st p).2.1
      dsimp only
      split <;> simp only [List.length_cons] <;> omega

/-- C10: after any `cleanupAll()` the registry is empty (`listTracked` returns
the empty sequence) even when individual removals failed, and the returned
count never exceeds the number of paths that were tracked. -/
theorem cleanupAllSync_always_empties (fs : FSState) (st : ModState) :
    getTempFiles (cleanupAllSync fs st).2.1 = [] ∧
    (cleanupAllSync fs st).2.2 ≤ st.tempFiles.length := by
  exact ⟨rfl, cleanupAllLoop_count_le st.tempFiles fs st⟩

/-! ### C3 -/

/-- C3: when directory creation or the underlying write fails, `tempWriteSync`
reports a wrapped `Failed to write temporary file` error, the module state is
untouched, and the would-be path is not registered. -/
theorem tempWriteSync_io_failure_no_registration (fs : FSState) (st : ModState)
    (c : JSVal) (e : String) (opts : WriteOptions) (r t : String)
    (hc : c.isNullish = false)
    (hfail : (opts.dir ∉ fs.live ∧ opts.dir ∈ fs.mkdirFails) ∨
      pathJoin opts.dir (opts.pre ++ t ++ "-" ++ r ++ normalizeExt e) ∈ fs.writeFails) :
    (tempWriteSync fs st c (.vstr e) opts r t).2.1 = st ∧
    (∃ msg, (tempWriteSync fs st c (.vstr e) opts r t).2.2 =
        .error ("Failed to write temporary file: " ++ msg)) ∧
    isTempFile (tempWriteSync fs st c (.vstr e) opts r t).2.1
        (pathJoin opts.dir (opts.pre ++ t ++ "-" ++ r ++ normalizeExt e)) =
      isTempFile st (pathJoin opts.dir (opts.pre ++ t ++ "-" ++ r ++ normalizeExt e)) := by
  rcases hfail with ⟨hdl, hdm⟩ | hw
  · have hres : tempWriteSync fs st c (.vstr e) opts r t =
        (fs, st, .error ("Failed to write temporary file: " ++ "mkdir failed")) := by
      simp [tempWriteSync, ensureDir, hc, hdl, hdm]
    rw [hres]
    exact ⟨rfl, ⟨"mkdir failed", rfl⟩, rfl⟩
  · by_cases hdl : opts.dir ∈ fs.live
    · have hres : tempWriteSync fs st c (.vstr e) opts r t =
          (fs, st, .error ("Failed to write temporary file: " ++ "write failed")) := by
        simp [tempWriteSync, ensureDir, fsWrite, hc, hdl, hw]
      rw [hres]
      exact ⟨rfl, ⟨"write failed", rfl⟩, rfl⟩
    · by_cases hdm : opts.dir ∈ fs.mkdirFails
      · have hres : tempWriteSync fs st c (.vstr e) opts r t =
            (fs, st, .error ("Failed to write temporary file: " ++ "mkdir failed")) := by
          simp [tempWriteSync, ensureDir, hc, hdl, hdm]
        rw [hres]
        exact ⟨rfl, ⟨"mkdir failed", rfl⟩, rfl⟩
      · have hres : (tempWriteSync fs st c (.vstr e) opts r t).2 =
            (st, .error ("Failed to write temporary file: " ++ "write failed")) := by
          simp [tempWriteSync, ensureDir, fsWrite, hc, hdl, hdm, hw]
        rw [hres]
        exact ⟨rfl, ⟨"write failed", rfl⟩, rfl⟩

/-! ### C8 -/

theorem tempWriteSync_success_path (fs : FSState) (st : ModState) (c : JSVal)
    (opts : WriteOptions) (r t ext : String)
    (hc : c.isNullish = false)
    (hdir : opts.dir ∈ fs.live ∨ opts.dir ∉ fs.mkdirFails)
    (hw : pathJoin opts.dir (opts.pre ++ t ++ "-" ++ r ++ normalizeExt ext) ∉ fs.writeFails) :
    (tempWriteSync fs st c (.vstr ext) opts r t).2.2 =
      .ok (pathJoin opts.dir (opts.pre ++ t ++ "-" ++ r ++ normalizeExt ext)) := by
  have hEd : ∃ fs1 : FSState, ensureDir fs opts.dir = .ok fs1 ∧
      fs1.writeFails = fs.writeFails := by
    unfold ensureDir
    by_cases hdl : opts.dir ∈ fs.live
    · exact ⟨fs, by rw [if_pos hdl], rfl⟩
    · rcases hdir with h | hdm
      · exact absurd h hdl
      · exact ⟨{ fs with live := setAdd fs.live opts.dir,
                         dirs := setAdd fs.dirs opts.dir },
               by rw [if_neg hdl, if_neg hdm], rfl⟩
  obtain ⟨fs1, h1, h1w⟩ := hEd
  have h2 : ∃ fs2, fsWrite fs1
      (pathJoin opts.dir (opts.pre ++ t ++ "-" ++ r ++ normalizeExt ext)) = .ok fs2 := by
    unfold fsWrite
    rw [if_neg (h1w ▸ hw)]
    exact ⟨_, rfl⟩
  obtain ⟨fs2, h2⟩ := h2
  unfold tempWriteSync
  rw [if_neg (by simp [hc])]
  dsimp only
  rw [h1]
  dsimp only
  rw [h2]
  dsimp only
  split <;> rfl

theorem strStartsWith_dot_append (e : String) :
    strStartsWith ("." ++ e) "." = true := by
  unfold strStartsWith
  rw [String.data_append]
  exact List.isPrefixOf_iff_prefix.mpr (List.prefix_append _ _)

/-- C8: a non-empty extension is normalized to begin with the dot separator,
normalization is idempotent, and `write(x, "txt")` / `write(x, ".txt")`
produce paths with the identical `".txt"` suffix. -/
theorem tempWriteSync_extension_normalization (fs : FSState) (st : ModState)
    (c : JSVal) (opts : WriteOptions) (r t e : String)
    (hc : c.isNullish = false)
    (hdir : opts.dir ∈ fs.live ∨ opts.dir ∉ fs.mkdirFails)
    (hw : pathJoin opts.dir (opts.pre ++ t ++ "-" ++ r ++ ".txt") ∉ fs.writeFails) :
    (e ≠ "" → ∃ s, normalizeExt e = "." ++ s) ∧
    normalizeExt (normalizeExt e) = normalizeExt e ∧
    ∃ stem,
      (tempWriteSync fs st c (.vstr "txt") opts r t).2.2 = .ok (stem ++ ".txt") ∧
      (tempWriteSync fs st c (.vstr ".txt") opts r t).2.2 = .ok (stem ++ ".txt") := by
  have hn1 : normalizeExt "txt" = ".txt" := by decide
  have hn2 : normalizeExt ".txt" = ".txt" := by decide
  refine ⟨?_, ?_, ?_⟩
  · intro he
    by_cases hsw : strStartsWith e "." = true
    · refine ⟨⟨e.data.drop 1⟩, ?_⟩
      have hdat : e.data = ['.'] ++ e.data.drop 1 := by
        have hp : ['.'] <+: e.data := by
          have : (".".data : List Char) = ['.'] := rfl
          rw [← this]
          exact List.isPrefixOf_iff_prefix.mp hsw
        obtain ⟨tt, htt⟩ := hp
        rw [← htt]
        simp
      have hne : normalizeExt e = e := by
        unfold normalizeExt
        rw [if_neg]
        simp [hsw]
      rw [hne]
      apply String.ext
      rw [String.data_append]
      exact hdat
    · have hsw' : strStartsWith e "." = false := by
        simpa using hsw
      exact ⟨e, by simp [normalizeExt, he, hsw']⟩
  · by_cases he : e = ""
    · subst he
      decide
    · by_cases hsw : strStartsWith e "." = true
      · have hne : normalizeExt e = e := by
          unfold normalizeExt
          rw [if_neg]
          simp [hsw]
        rw [hne, hne]
      · have hsw' : strStartsWith e "." = false := by simpa using hsw
        have hne : normalizeExt e = "." ++ e := by
          simp [normalizeExt, he, hsw']
        rw [hne]
        unfold normalizeExt
        rw [if_neg]
        simp [strStartsWith_dot_append]
  · refine ⟨opts.dir ++ "/" ++ (opts.pre ++ t ++ "-" ++ r), ?_, ?_⟩
    · have := tempWriteSync_success_path fs st c opts r t "txt" hc hdir (by rw [hn1]; exact hw)
      rw [hn1] at this
      rw [this]
      unfold pathJoin
      rw [← String.append_assoc]
    · have := tempWriteSync_success_path fs st c opts r t ".txt" hc hdir (by rw [hn2]; exact hw)
      rw [hn2] at this
      rw [this]
      unfold pathJoin
      rw [← String.append_assoc]

/-! ### C6 -/

theorem replaceFirstL_of_not_hasSub (pat rep : List Char) :
    ∀ s : List Char, hasSub s pat = false → replaceFirstL s pat rep = s := by
  intro s
  induction s with
  | nil =>
      intro h
      cases pat with
      | nil => simp [hasSub, List.isPrefixOf] at h
      | cons p ps => simp [replaceFirstL]
  | cons c rest ih =>
      intro h
      unfold hasSub at h
      cases hB : pat.isPrefixOf (c :: rest) with
      | true => rw [if_pos hB] at h; exact absurd h (by simp)
      | false =>
          rw [if_neg (by rw [hB]; exact Bool.false_ne_true)] at h
          simp only [replaceFirstL]
          rw [if_neg (by rw [hB]; exact Bool.false_ne_true)]
          rw [ih h]

theorem replaceFirstL_at_first (pat b rep : List Char) : ∀ a : List Char,
    (∀ i, i < a.length → pat.isPrefixOf ((a ++ (pat ++ b)).drop i) = false) →
    replaceFirstL (a ++ (pat ++ b)) pat rep = a ++ (rep ++ b) := by
  intro a
  induction a with
  | nil =>
      intro _
      simp only [List.nil_append]
      cases pat with
      | nil =>
          cases b with
          | nil => simp [replaceFirstL]
          | cons c rest => simp [replaceFirstL, List.isPrefixOf]
      | cons p ps =>
          have hpp : (p :: ps).isPrefixOf ((p :: ps) ++ b) = true :=
            List.isPrefixOf_iff_prefix.mpr (List.prefix_append _ _)
          have hdrop : ((p :: ps) ++ b).drop (p :: ps).length = b :=
            List.drop_left _ _
          simp only [List.cons_append] at hpp hdrop ⊢
          simp only [replaceFirstL]
          rw [if_pos hpp, hdrop]
  | cons c a' ih =>
      intro h
      have h0 : pat.isPrefixOf (c :: (a' ++ (pat ++ b))) = false := by
        have h' := h 0 (by simp)
        simp only [List.drop_zero, List.cons_append] at h'
        exact h'
      simp only [List.cons_append]
      simp only [replaceFirstL]
      rw [if_neg (by rw [h0]; exact Bool.false_ne_true)]
      rw [ih (fun i hi => by
        have h' := h (i + 1) (by simp only [List.length_cons]; omega)
        simp only [List.cons_append, List.drop_succ_cons] at h'
        exact h')]

theorem tempWritePatternSync_success_path (fs : FSState) (st : ModState)
    (c : JSVal) (pat : String) (opts : WriteOptions) (r t : String)
    (hdir : opts.dir ∈ fs.live ∨ opts.dir ∉ fs.mkdirFails)
    (hw : pathJoin opts.dir (patternFilename pat r t) ∉ fs.writeFails) :
    (tempWritePatternSync fs st c pat opts r t).2.2 =
      .ok (pathJoin opts.dir (patternFilename pat r t)) := by
  have hEd : ∃ fs1 : FSState, ensureDir fs opts.dir = .ok fs1 ∧
      fs1.writeFails = fs.writeFails := by
    unfold ensureDir
    by_cases hdl : opts.dir ∈ fs.live
    · exact ⟨fs, by rw [if_pos hdl], rfl⟩
    · rcases hdir with h | hdm
      · exact absurd h hdl
      · exact ⟨{ fs with live := setAdd fs.live opts.dir,
                         dirs := setAdd fs.dirs opts.dir },
               by rw [if_neg hdl, if_neg hdm], rfl⟩
  obtain ⟨fs1, h1, h1w⟩ := hEd
  have h2 : ∃ fs2, fsWrite fs1
      (pathJoin opts.dir (patternFilename pat r t)) = .ok fs2 := by
    unfold fsWrite
    rw [if_neg (h1w ▸ hw)]
    exact ⟨_, rfl⟩
  obtain ⟨fs2, h2⟩ := h2
  unfold tempWritePatternSync
  dsimp only
  rw [h1]
  dsimp only
  rw [h2]
  dsimp only
  split <;> rfl

theorem patternFilename_single_random (a b r t : String)
    (h1 : ∀ i, i < a.data.length →
      "{random}".data.isPrefixOf ((a.data ++ ("{random}".data ++ b.data)).drop i) = false)
    (h2 : hasSub (a ++ r ++ b).data "{timestamp}".data = false)
    (h3 : hasSub (a ++ r ++ b).data "{time}".data = false) :
    patternFilename (a ++ "{random}" ++ b) r t = a ++ r ++ b := by
  have hstep1 : replaceFirst (a ++ "{random}" ++ b) "{random}" r = a ++ r ++ b := by
    unfold replaceFirst
    apply String.ext
    have hd : (a ++ "{random}" ++ b).data = a.data ++ ("{random}".data ++ b.data) := by
      simp [String.data_append]
    rw [hd]
    rw [replaceFirstL_at_first _ _ _ _ h1]
    simp [String.data_append]
  unfold patternFilename
  rw [hstep1]
  have hstep2 : replaceFirst (a ++ r ++ b) "{timestamp}" t = a ++ r ++ b := by
    unfold replaceFirst
    apply String.ext
    rw [replaceFirstL_of_not_hasSub _ _ _ h2]
  rw [hstep2]
  unfold replaceFirst
  apply String.ext
  rw [replaceFirstL_of_not_hasSub _ _ _ h3]

/-- C6 (amended): `writeWithPattern` substitutes only the first occurrence of
each recognized placeholder; occurrences after the first and unrecognized
placeholders are left verbatim.  Here: a pattern whose first `{random}`
occurrence follows the prefix `a` — `b` may itself still contain `{random}`,
which stays verbatim — yields the filename `a ++ randomId ++ b` when
`{timestamp}`/`{time}` do not occur in the substituted result. -/
theorem tempWritePatternSync_first_occurrence_only (fs : FSState) (st : ModState)
    (c : JSVal) (opts : WriteOptions) (r t a b : String)
    (h1 : ∀ i, i < a.data.length →
      "{random}".data.isPrefixOf ((a.data ++ ("{random}".data ++ b.data)).drop i) = false)
    (h2 : hasSub (a ++ r ++ b).data "{timestamp}".data = false)
    (h3 : hasSub (a ++ r ++ b).data "{time}".data = false)
    (hdir : opts.dir ∈ fs.live ∨ opts.dir ∉ fs.mkdirFails)
    (hw : pathJoin opts.dir (a ++ r ++ b) ∉ fs.writeFails) :
    (tempWritePatternSync fs st c (a ++ "{random}" ++ b) opts r t).2.2 =
      .ok (pathJoin opts.dir (a ++ r ++ b)) := by
  have hpf : patternFilename (a ++ "{random}" ++ b) r t = a ++ r ++ b :=
    patternFilename_single_random a b r t h1 h2 h3
  have := tempWritePatternSync_success_path fs st c (a ++ "{random}" ++ b) opts r t
    hdir (by rw [hpf]; exact hw)
  rw [hpf] at this
  exact this

/-- C6 (counterexample): with pattern `{random}-{random}` only the first
`{random}` is substituted — the produced filename still contains the literal
text `{random}`, refuting substitution "wherever they occur". -/
theorem tempWritePatternSync_second_occurrence_verbatim :
    (tempWritePatternSync ⟨["/tmp"], ["/tmp"], [], [], []⟩ initMod (.vstr "x")
        "{random}-{random}" ⟨"/tmp", "temp-", true, 0o600, ","⟩ "ab" "tt").2.2 =
      .ok "/tmp/ab-{random}" ∧
    ("/tmp/ab-{random}" : String) ≠ "/tmp/ab-ab" := by
  constructor
  · rfl
  · decide

/-! ### C7 -/

/-- C7 (amended): `writeCsv` rejects non-array input with the
`CSV data must be an array` error, and rejects a non-empty array whose FIRST
element is neither an array nor of `typeof === 'object'` with the
`Invalid CSV data format` error; in both cases no state changes.  (The shape
dispatch inspects only the first row.) -/
theorem tempWriteCsvSync_first_row_dispatch (fs : FSState) (st : ModState)
    (opts : WriteOptions) (r t : String) (d : JSVal) :
    (d.isArr = false →
      tempWriteCsvSync fs st d opts r t = (fs, st, .error "CSV data must be an array")) ∧
    (∀ x xs, d = .varr (x :: xs) → x.isArr = false → x.jsTypeof ≠ "object" →
      tempWriteCsvSync fs st d opts r t = (fs, st, .error "Invalid CSV data format")) := by
  constructor
  · intro h
    cases d <;> first
      | rfl
      | simp [JSVal.isArr] at h
  · intro x xs hd hx1 hx2
    subst hd
    have hfmt : csvFormat (.varr (x :: xs)) opts.delimiter =
        .error "Invalid CSV data format" := by
      simp [csvFormat, hx1, hx2]
    unfold tempWriteCsvSync
    rw [hfmt]

/-- C7 (counterexample): the mixed-shape input `[{a: 1}, 42]` is NOT rejected
with `InvalidFormat` — the second row is never shape-checked and the call
succeeds, formatting the stray number row as an empty quoted cell. -/
theorem tempWriteCsvSync_mixed_rows_accepted :
    csvFormat (.varr [.vobj [("a", .vnum 1)], .vnum 42]) "," =
      .ok "\"a\"\n\"1\"\n\"\"" ∧
    (tempWriteCsvSync ⟨["/tmp"], ["/tmp"], [], [], []⟩ initMod
        (.varr [.vobj [("a", .vnum 1)], .vnum 42]) ⟨"/tmp", "temp-", true, 0o600, ","⟩
        "rr" "tt").2.2 = .ok "/tmp/temp-tt-rr.csv" := by
  constructor <;> rfl

/-! ### C2 -/

/-- Whether `cleanupSync`, run against filesystem `fs`, reports success for
`p`: it returns `false` exactly when `p` exists and its removal fails. -/
def cleanupWouldSucceed (fs : FSState) (p : String) : Bool :=
  if p ∈ fs.live ∧ p ∈ fs.rmFails then false else true

theorem cleanupSync_ret_eq (fs : FSState) (st : ModState) (p : String) :
    (cleanupSync fs st p).2.2 = cleanupWouldSucceed fs p := by
  unfold cleanupWouldSucceed
  by_cases hl : p ∈ fs.live
  · by_cases hr : p ∈ fs.rmFails
    · rw [if_pos ⟨hl, hr⟩]
      unfold cleanupSync
      rw [if_pos hl, if_pos hr]
    · rw [if_neg (fun hc : p ∈ fs.live ∧ p ∈ fs.rmFails => hr hc.2)]
      unfold cleanupSync
      rw [if_pos hl, if_neg hr]
  · rw [if_neg (fun hc : p ∈ fs.live ∧ p ∈ fs.rmFails => hl hc.1)]
    unfold cleanupSync
    rw [if_neg hl]

theorem cleanupSync_live_mem (fs : FSState) (st : ModState) (p q : String)
    (hq : q ≠ p) (hpre : strStartsWith q (p ++ "/") = false) :
    q ∈ (cleanupSync fs st p).1.live ↔ q ∈ fs.live := by
  unfold cleanupSync
  by_cases hl : p ∈ fs.live
  · rw [if_pos hl]
    by_cases hr : p ∈ fs.rmFails
    · rw [if_pos hr]
    · rw [if_neg hr]
      by_cases hd : p ∈ fs.dirs
      · simp [if_pos hd, List.mem_filter, hq, hpre]
      · simp [if_neg hd, setDel, List.mem_filter, hq]
  · rw [if_neg hl]

theorem cleanupAllLoop_count_eq (L : List String) : ∀ fs st,
    L.Nodup →
    L.Pairwise (fun p q => strStartsWith q (p ++ "/") = false) →
    (cleanupAllLoop fs st L).2.2 =
      (L.filter (fun p => cleanupWouldSucceed fs p)).length := by
  induction L with
  | nil => intro fs st _ _; rfl
  | cons p rest ih =>
      intro fs st hnd hpw
      obtain ⟨hp_rest, hnd'⟩ := List.nodup_cons.mp hnd
      obtain ⟨hpw_head, hpw'⟩ := List.pairwise_cons.mp hpw
      have hcong : rest.filter (fun q => cleanupWouldSucceed (cleanupSync fs st p).1 q) =
          rest.filter (fun q => cleanupWouldSucceed fs q) :=
        List.filter_congr (fun q hqr => by
          have hq_ne : q ≠ p := fun e => hp_rest (e ▸ hqr)
          have hmem := cleanupSync_live_mem fs st p q hq_ne (hpw_head q hqr)
          have hrm := cleanupSync_rmFails_eq fs st p
          unfold cleanupWouldSucceed
          rw [hrm]
          by_cases hql : q ∈ fs.live <;> by_cases hqr2 : q ∈ fs.rmFails <;>
            simp [hmem, hql, hqr2])
      unfold cleanupAllLoop
      dsimp only
      rw [cleanupSync_ret_eq]
      rw [ih (cleanupSync fs st p).1 (cleanupSync fs st p).2.1 hnd' hpw']
      rw [hcong, List.filter_cons]
      by_cases hps : cleanupWouldSucceed fs p = true
      · simp [hps]
      · have hps' : cleanupWouldSucceed fs p = false := by simpa using hps
        simp [hps']

/-- C2: `cleanupAll()` returns the number of tracked paths whose removal
succeeds (absent paths count as successes; paths that exist and whose removal
fails do not), leaves the tracked list empty, and run again on the resulting
state returns `0` changing nothing.  Hypotheses: the tracked set has no
duplicates (it is a `Set`) and no tracked directory contains another tracked
path, so one removal cannot affect a later one. -/
theorem cleanupAllSync_count_successes (fs : FSState) (st : ModState)
    (hnd : st.tempFiles.Nodup)
    (hsep : st.tempFiles.Pairwise (fun p q => strStartsWith q (p ++ "/") = false)) :
    (cleanupAllSync fs st).2.2 =
      (st.tempFiles.filter (fun p => cleanupWouldSucceed fs p)).length ∧
    getTempFiles (cleanupAllSync fs st).2.1 = [] ∧
    cleanupAllSync (cleanupAllSync fs st).1 (cleanupAllSync fs st).2.1 =
      ((cleanupAllSync fs st).1, (cleanupAllSync fs st).2.1, 0) := by
  refine ⟨?_, rfl, rfl⟩
  unfold cleanupAllSync
  dsimp only
  exact cleanupAllLoop_count_eq st.tempFiles fs st hnd hsep

/-! ### Trace semantics for the process-wide invariants (C5, C9) -/

/-- Combined process state: the filesystem and the module-level globals. -/
structure World where
  fs : FSState
  st : ModState

/-- Forget an entry point's return value, keeping the state it left behind. -/
def toWorld {α : Type} (x : FSState × ModState × α) : World :=
  ⟨x.1, x.2.1⟩

/-- One call to the library's public surface.  Nondeterministic primitive
inputs (random id, timestamp, bytes read by `copy`, text produced by
`JSON.stringify`) are recorded in the operation. -/
inductive Op where
  | write (content extension : JSVal) (opts : WriteOptions) (randomId timestamp : String)
  | writeJson (v : JSVal) (serialized : String) (opts : WriteOptions)
      (randomId timestamp : String)
  | writeCsv (data : JSVal) (opts : WriteOptions) (randomId timestamp : String)
  | mkDir (opts : WriteOptions) (randomId timestamp : String)
  | copy (src : String) (content extension : JSVal) (opts : WriteOptions)
      (randomId timestamp : String)
  | patternWrite (content : JSVal) (pat : String) (opts : WriteOptions)
      (randomId timestamp : String)
  | cleanupOne (p : String)
  | cleanupAll
  | exclude (p : String)

/-- The state transition of one call. -/
def stepOp (w : World) : Op → World
  | .write c e opts r t => toWorld (tempWriteSync w.fs w.st c e opts r t)
  | .writeJson v s opts r t => toWorld (tempWriteJsonSync w.fs w.st v s opts r t)
  | .writeCsv d opts r t => toWorld (tempWriteCsvSync w.fs w.st d opts r t)
  | .mkDir opts r t => toWorld (tempDirSync w.fs w.st opts r t)
  | .copy src c e opts r t => toWorld (tempCopySync w.fs w.st src c e opts r t)
  | .patternWrite c pat opts r t => toWorld (tempWritePatternSync w.fs w.st c pat opts r t)
  | .cleanupOne p => toWorld (cleanupSync w.fs w.st p)
  | .cleanupAll => toWorld (cleanupAllSync w.fs w.st)
  | .exclude p => ⟨w.fs, excludeFromCleanup w.st p⟩

/-- Run a sequence of calls. -/
def runOps (w : World) : List Op → World
  | [] => w
  | o :: rest => runOps (stepOp w o) rest

/-- `true` for calls that never register a tracked resource: cleanup and
bookkeeping calls, and creation calls whose `cleanup` option is `false`. -/
def opCleanupOff : Op → Bool
  | .write _ _ opts _ _ => !opts.cleanup
  | .writeJson _ _ opts _ _ => !opts.cleanup
  | .writeCsv _ opts _ _ => !opts.cleanup
  | .mkDir opts _ _ => !opts.cleanup
  | .copy _ _ _ opts _ _ => !opts.cleanup
  | .patternWrite _ _ opts _ _ => !opts.cleanup
  | .cleanupOne _ => true
  | .cleanupAll => true
  | .exclude _ => true

theorem registerCleanup_flag_true (st : ModState) :
    (registerCleanup st).cleanupRegistered = true := by
  unfold registerCleanup
  split
  · assumption
  · rfl

theorem tempWriteSync_st_cases (fs : FSState) (st : ModState) (c e : JSVal)
    (opts : WriteOptions) (r t : String) :
    (tempWriteSync fs st c e opts r t).2.1 = st ∨
    ∃ p, (tempWriteSync fs st c e opts r t).2.1 =
      { registerCleanup st with tempFiles := setAdd (registerCleanup st).tempFiles p } := by
  unfold tempWriteSync
  split
  · exact Or.inl rfl
  · split
    · dsimp only
      split
      · exact Or.inl rfl
      · split
        · exact Or.inl rfl
        · split
          · exact Or.inr ⟨_, rfl⟩
          · exact Or.inl rfl
    · exact Or.inl rfl

theorem tempWriteSync_cleanup_false (fs : FSState) (st : ModState) (c e : JSVal)
    (opts : WriteOptions) (r t : String) (h : opts.cleanup = false) :
    (tempWriteSync fs st c e opts r t).2.1 = st := by
  unfold tempWriteSync
  split
  · rfl
  · split
    · dsimp only
      split
      · rfl
      · split
        · rfl
        · rw [if_neg (by rw [h]; exact Bool.false_ne_true)]
    · rfl

theorem tempDirSync_st_cases (fs : FSState) (st : ModState)
    (opts : WriteOptions) (r t : String) :
    (tempDirSync fs st opts r t).2.1 = st ∨
    ∃ p, (tempDirSync fs st opts r t).2.1 =
      { registerCleanup st with tempFiles := setAdd (registerCleanup st).tempFiles p } := by
  unfold tempDirSync
  dsimp only
  split
  · exact Or.inl rfl
  · split
    · exact Or.inr ⟨_, rfl⟩
    · exact Or.inl rfl

theorem tempDirSync_cleanup_false (fs : FSState) (st : ModState)
    (opts : WriteOptions) (r t : String) (h : opts.cleanup = false) :
    (tempDirSync fs st opts r t).2.1 = st := by
  unfold tempDirSync
  dsimp only
  split
  · rfl
  · rw [if_neg (by rw [h]; exact Bool.false_ne_true)]

theorem tempWritePatternSync_st_cases (fs : FSState) (st : ModState) (c : JSVal)
    (pat : String) (opts : WriteOptions) (r t : String) :
    (tempWritePatternSync fs st c pat opts r t).2.1 = st ∨
    ∃ p, (tempWritePatternSync fs st c pat opts r t).2.1 =
      { registerCleanup st with tempFiles := setAdd (registerCleanup st).tempFiles p } := by
  unfold tempWritePatternSync
  dsimp only
  split
  · exact Or.inl rfl
  · split
    · exact Or.inl rfl
    · split
      · exact Or.inr ⟨_, rfl⟩
      · exact Or.inl rfl

theorem tempWritePatternSync_cleanup_false (fs : FSState) (st : ModState)
    (c : JSVal) (pat : String) (opts : WriteOptions) (r t : String)
    (h : opts.cleanup = false) :
    (tempWritePatternSync fs st c pat opts r t).2.1 = st := by
  unfold tempWritePatternSync
  dsimp only
  split
  · rfl
  · split
    · rfl
    · rw [if_neg (by rw [h]; exact Bool.false_ne_true)]

theorem tempWriteJsonSync_st_cases (fs : FSState) (st : ModState) (v : JSVal)
    (s : String) (opts : WriteOptions) (r t : String) :
    (tempWriteJsonSync fs st v s opts r t).2.1 = st ∨
    ∃ p, (tempWriteJsonSync fs st v s opts r t).2.1 =
      { registerCleanup st with tempFiles := setAdd (registerCleanup st).tempFiles p } := by
  unfold tempWriteJsonSync
  split
  · exact Or.inl rfl
  · exact tempWriteSync_st_cases fs st _ _ opts r t

theorem tempWriteJsonSync_cleanup_false (fs : FSState) (st : ModState) (v : JSVal)
    (s : String) (opts : WriteOptions) (r t : String) (h : opts.cleanup = false) :
    (tempWriteJsonSync fs st v s opts r t).2.1 = st := by
  unfold tempWriteJsonSync
  split
  · rfl
  · exact tempWriteSync_cleanup_false fs st _ _ opts r t h

theorem tempWriteCsvSync_st_cases (fs : FSState) (st : ModState) (d : JSVal)
    (opts : WriteOptions) (r t : String) :
    (tempWriteCsvSync fs st d opts r t).2.1 = st ∨
    ∃ p, (tempWriteCsvSync fs st d opts r t).2.1 =
      { registerCleanup st with tempFiles := setAdd (registerCleanup st).tempFiles p } := by
  unfold tempWriteCsvSync
  split
  · exact Or.inl rfl
  · exact tempWriteSync_st_cases fs st _ _ opts r t

theorem tempWriteCsvSync_cleanup_false (fs : FSState) (st : ModState) (d : JSVal)
    (opts : WriteOptions) (r t : String) (h : opts.cleanup = false) :
    (tempWriteCsvSync fs st d opts r t).2.1 = st := by
  unfold tempWriteCsvSync
  split
  · rfl
  · exact tempWriteSync_cleanup_false fs st _ _ opts r t h

theorem tempCopySync_st_cases (fs : FSState) (st : ModState) (src : String)
    (c e : JSVal) (opts : WriteOptions) (r t : String) :
    (tempCopySync fs st src c e opts r t).2.1 = st ∨
    ∃ p, (tempCopySync fs st src c e opts r t).2.1 =
      { registerCleanup st with tempFiles := setAdd (registerCleanup st).tempFiles p } := by
  unfold tempCopySync
  split
  · exact Or.inl rfl
  · exact tempWriteSync_st_cases fs st _ _ opts r t

theorem tempCopySync_cleanup_false (fs : FSState) (st : ModState) (src : String)
    (c e : JSVal) (opts : WriteOptions) (r t : String) (h : opts.cleanup = false) :
    (tempCopySync fs st src c e opts r t).2.1 = st := by
  unfold tempCopySync
  split
  · rfl
  · exact tempWriteSync_cleanup_false fs st _ _ opts r t h

theorem cleanupAllLoop_flag (L : List String) : ∀ fs st,
    (cleanupAllLoop fs st L).2.1.cleanupRegistered = st.cleanupRegistered ∧
    (cleanupAllLoop fs st L).2.1.hookInstalls = st.hookInstalls := by
  induction L with
  | nil => intro fs st; exact ⟨rfl, rfl⟩
  | cons p rest ih =>
      intro fs st
      unfold cleanupAllLoop
      dsimp only
      obtain ⟨h1, h2⟩ := ih (cleanupSync fs st p).1 (cleanupSync fs st p).2.1
      obtain ⟨h3, h4⟩ := cleanupSync_flag_eq fs st p
      exact ⟨h1.trans h3, h2.trans h4⟩

theorem cleanupAllSync_flag (fs : FSState) (st : ModState) :
    (cleanupAllSync fs st).2.1.cleanupRegistered = st.cleanupRegistered ∧
    (cleanupAllSync fs st).2.1.hookInstalls = st.hookInstalls :=
  cleanupAllLoop_flag st.tempFiles fs st

/-- Invariant relating the installation counter to the one-shot flag. -/
def hookInv (st : ModState) : Prop :=
  st.hookInstalls = (if st.cleanupRegistered then 1 else 0)

theorem registerCleanup_hookInv (st : ModState) (h : hookInv st) :
    hookInv (registerCleanup st) := by
  unfold hookInv registerCleanup at *
  by_cases hf : st.cleanupRegistered
  · rw [if_pos hf]
    exact h
  · rw [if_neg hf]
    rw [if_neg hf] at h
    simp [h, hf]

theorem writerFields_cases (st x : ModState)
    (h : x = st ∨ ∃ p, x =
      { registerCleanup st with tempFiles := setAdd (registerCleanup st).tempFiles p }) :
    (x.cleanupRegistered = st.cleanupRegistered ∧ x.hookInstalls = st.hookInstalls) ∨
    (x.cleanupRegistered = (registerCleanup st).cleanupRegistered ∧
     x.hookInstalls = (registerCleanup st).hookInstalls) := by
  rcases h with h | ⟨p, h⟩
  · subst h
    exact Or.inl ⟨rfl, rfl⟩
  · subst h
    exact Or.inr ⟨rfl, rfl⟩

theorem writerFlag_true_of_add (st x : ModState)
    (h : ∃ p, x =
      { registerCleanup st with tempFiles := setAdd (registerCleanup st).tempFiles p }) :
    x.cleanupRegistered = true := by
  obtain ⟨p, h⟩ := h
  subst h
  exact registerCleanup_flag_true st

theorem modState_eq_of_fields (x y : ModState)
    (h1 : x.tempFiles = y.tempFiles) (h2 : x.cleanupRegistered = y.cleanupRegistered)
    (h3 : x.hookInstalls = y.hookInstalls) : x = y := by
  cases x
  cases y
  simp_all

theorem stepOp_hook_flag (w : World) (o : Op) :
    ((stepOp w o).st.cleanupRegistered = w.st.cleanupRegistered ∧
     (stepOp w o).st.hookInstalls = w.st.hookInstalls) ∨
    ((stepOp w o).st.cleanupRegistered = (registerCleanup w.st).cleanupRegistered ∧
     (stepOp w o).st.hookInstalls = (registerCleanup w.st).hookInstalls) := by
  cases o with
  | write c e opts r t =>
      exact writerFields_cases w.st _ (tempWriteSync_st_cases w.fs w.st c e opts r t)
  | writeJson v s opts r t =>
      exact writerFields_cases w.st _ (tempWriteJsonSync_st_cases w.fs w.st v s opts r t)
  | writeCsv d opts r t =>
      exact writerFields_cases w.st _ (tempWriteCsvSync_st_cases w.fs w.st d opts r t)
  | mkDir opts r t =>
      exact writerFields_cases w.st _ (tempDirSync_st_cases w.fs w.st opts r t)
  | copy src c e opts r t =>
      exact writerFields_cases w.st _ (tempCopySync_st_cases w.fs w.st src c e opts r t)
  | patternWrite c pat opts r t =>
      exact writerFields_cases w.st _
        (tempWritePatternSync_st_cases w.fs w.st c pat opts r t)
  | cleanupOne p => exact Or.inl (cleanupSync_flag_eq w.fs w.st p)
  | cleanupAll => exact Or.inl (cleanupAllSync_flag w.fs w.st)
  | exclude p => exact Or.inl ⟨rfl, rfl⟩

theorem stepOp_hookInv (w : World) (o : Op) (h : hookInv w.st) :
    hookInv (stepOp w o).st := by
  rcases stepOp_hook_flag w o with ⟨h1, h2⟩ | ⟨h1, h2⟩
  · unfold hookInv at *
    rw [h1, h2]
    exact h
  · unfold hookInv at *
    rw [h1, h2]
    exact registerCleanup_hookInv w.st h

theorem runOps_hookInv (ops : List Op) : ∀ w : World, hookInv w.st →
    hookInv (runOps w ops).st := by
  induction ops with
  | nil => intro w h; exact h
  | cons o rest ih => intro w h; exact ih (stepOp w o) (stepOp_hookInv w o h)

theorem stepOp_cleanupOff (w : World) (o : Op) (h : opCleanupOff o = true) :
    (stepOp w o).st.cleanupRegistered = w.st.cleanupRegistered ∧
    (stepOp w o).st.hookInstalls = w.st.hookInstalls := by
  cases o with
  | write c e opts r t =>
      have hc : opts.cleanup = false := by
        simpa [opCleanupOff] using h
      have := tempWriteSync_cleanup_false w.fs w.st c e opts r t hc
      exact ⟨congrArg ModState.cleanupRegistered this,
        congrArg ModState.hookInstalls this⟩
  | writeJson v s opts r t =>
      have hc : opts.cleanup = false := by
        simpa [opCleanupOff] using h
      have := tempWriteJsonSync_cleanup_false w.fs w.st v s opts r t hc
      exact ⟨congrArg ModState.cleanupRegistered this,
        congrArg ModState.hookInstalls this⟩
  | writeCsv d opts r t =>
      have hc : opts.cleanup = false := by
        simpa [opCleanupOff] using h
      have := tempWriteCsvSync_cleanup_false w.fs w.st d opts r t hc
      exact ⟨congrArg ModState.cleanupRegistered this,
        congrArg ModState.hookInstalls this⟩
  | mkDir opts r t =>
      have hc : opts.cleanup = false := by
        simpa [opCleanupOff] using h
      have := tempDirSync_cleanup_false w.fs w.st opts r t hc
      exact ⟨congrArg ModState.cleanupRegistered this,
        congrArg ModState.hookInstalls this⟩
  | copy src c e opts r t =>
      have hc : opts.cleanup = false := by
        simpa [opCleanupOff] using h
      have := tempCopySync_cleanup_false w.fs w.st src c e opts r t hc
      exact ⟨congrArg ModState.cleanupRegistered this,
        congrArg ModState.hookInstalls this⟩
  | patternWrite c pat opts r t =>
      have hc : opts.cleanup = false := by
        simpa [opCleanupOff] using h
      have := tempWritePatternSync_cleanup_false w.fs w.st c pat opts r t hc
      exact ⟨congrArg ModState.cleanupRegistered this,
        congrArg ModState.hookInstalls this⟩
  | cleanupOne p => exact cleanupSync_flag_eq w.fs w.st p
  | cleanupAll => exact cleanupAllSync_flag w.fs w.st
  | exclude p => exact ⟨rfl, rfl⟩

theorem runOps_cleanupOff (ops : List Op) : ∀ w : World,
    (∀ o ∈ ops, opCleanupOff o = true) →
    (runOps w ops).st.cleanupRegistered = w.st.cleanupRegistered ∧
    (runOps w ops).st.hookInstalls = w.st.hookInstalls := by
  induction ops with
  | nil => intro w _; exact ⟨rfl, rfl⟩
  | cons o rest ih =>
      intro w hall
      obtain ⟨ho, hrest⟩ := List.forall_mem_cons.mp hall
      obtain ⟨h1, h2⟩ := ih (stepOp w o) hrest
      obtain ⟨h3, h4⟩ := stepOp_cleanupOff w o ho
      exact ⟨h1.trans h3, h2.trans h4⟩

/-! ### C5 -/

/-- C5: starting from the initial module state, any sequence of calls installs
the process-termination hooks at most once; and when every call in the
sequence has the `cleanup` option off (so no tracked resource is ever
registered), no hooks are installed at all — the flag stays down and the
installation body never runs. -/
theorem hooks_installed_at_most_once (fs0 : FSState) (ops : List Op) :
    (runOps ⟨fs0, initMod⟩ ops).st.hookInstalls ≤ 1 ∧
    ((∀ o ∈ ops, opCleanupOff o = true) →
      (runOps ⟨fs0, initMod⟩ ops).st.hookInstalls = 0 ∧
      (runOps ⟨fs0, initMod⟩ ops).st.cleanupRegistered = false) := by
  constructor
  · have h := runOps_hookInv ops ⟨fs0, initMod⟩ rfl
    unfold hookInv at h
    rw [h]
    split <;> omega
  · intro hall
    obtain ⟨h1, h2⟩ := runOps_cleanupOff ops ⟨fs0, initMod⟩ hall
    exact ⟨h2, h1⟩

/-- C5 (witness): a run with one cleanup-disabled write installs no hooks. -/
theorem hooks_installed_at_most_once_witness :
    (runOps ⟨⟨[], [], [], [], []⟩, initMod⟩
        [Op.write (.vstr "x") (.vstr "") ⟨"/tmp", "temp-", false, 0o600, ","⟩
          "rr" "tt"]).st.hookInstalls = 0 ∧
    (runOps ⟨⟨[], [], [], [], []⟩, initMod⟩
        [Op.write (.vstr "x") (.vstr "") ⟨"/tmp", "temp-", false, 0o600, ","⟩
          "rr" "tt"]).st.cleanupRegistered = false :=
  (hooks_installed_at_most_once ⟨[], [], [], [], []⟩
    [Op.write (.vstr "x") (.vstr "") ⟨"/tmp", "temp-", false, 0o600, ","⟩
      "rr" "tt"]).2 (by decide)

/-! ### C9 -/

/-- The invariant of C9: a non-empty registry implies installed hooks. -/
def trackInv (st : ModState) : Prop :=
  st.tempFiles ≠ [] → st.cleanupRegistered = true

theorem stepOp_st_shape (w : World) (o : Op) :
    (stepOp w o).st = w.st ∨
    (∃ p, (stepOp w o).st = { w.st with tempFiles := setDel w.st.tempFiles p }) ∨
    ((stepOp w o).st.tempFiles = [] ∧
     (stepOp w o).st.cleanupRegistered = w.st.cleanupRegistered) ∨
    (stepOp w o).st.cleanupRegistered = true := by
  cases o with
  | write c e opts r t =>
      rcases tempWriteSync_st_cases w.fs w.st c e opts r t with h | hp
      · exact Or.inl h
      · exact Or.inr (Or.inr (Or.inr (writerFlag_true_of_add w.st _ hp)))
  | writeJson v s opts r t =>
      rcases tempWriteJsonSync_st_cases w.fs w.st v s opts r t with h | hp
      · exact Or.inl h
      · exact Or.inr (Or.inr (Or.inr (writerFlag_true_of_add w.st _ hp)))
  | writeCsv d opts r t =>
      rcases tempWriteCsvSync_st_cases w.fs w.st d opts r t with h | hp
      · exact Or.inl h
      · exact Or.inr (Or.inr (Or.inr (writerFlag_true_of_add w.st _ hp)))
  | mkDir opts r t =>
      rcases tempDirSync_st_cases w.fs w.st opts r t with h | hp
      · exact Or.inl h
      · exact Or.inr (Or.inr (Or.inr (writerFlag_true_of_add w.st _ hp)))
  | copy src c e opts r t =>
      rcases tempCopySync_st_cases w.fs w.st src c e opts r t with h | hp
      · exact Or.inl h
      · exact Or.inr (Or.inr (Or.inr (writerFlag_true_of_add w.st _ hp)))
  | patternWrite c pat opts r t =>
      rcases tempWritePatternSync_st_cases w.fs w.st c pat opts r t with h | hp
      · exact Or.inl h
      · exact Or.inr (Or.inr (Or.inr (writerFlag_true_of_add w.st _ hp)))
  | cleanupOne p =>
      rcases cleanupSync_tempFiles_sub w.fs w.st p with h | h
      · refine Or.inl (modState_eq_of_fields _ _ h ?_ ?_)
        · exact (cleanupSync_flag_eq w.fs w.st p).1
        · exact (cleanupSync_flag_eq w.fs w.st p).2
      · refine Or.inr (Or.inl ⟨p, modState_eq_of_fields _ _ h ?_ ?_⟩)
        · exact (cleanupSync_flag_eq w.fs w.st p).1
        · exact (cleanupSync_flag_eq w.fs w.st p).2
  | cleanupAll =>
      exact Or.inr (Or.inr (Or.inl ⟨rfl, (cleanupAllSync_flag w.fs w.st).1⟩))
  | exclude p => exact Or.inr (Or.inl ⟨p, rfl⟩)

theorem stepOp_trackInv (w : World) (o : Op) (h : trackInv w.st) :
    trackInv (stepOp w o).st := by
  rcases stepOp_st_shape w o with h1 | ⟨p, h1⟩ | ⟨h1, h2⟩ | h1
  · rw [h1]; exact h
  · intro hne
    rw [h1] at hne ⊢
    apply h
    intro hnil
    apply hne
    show setDel w.st.tempFiles p = []
    rw [hnil]
    rfl
  · intro hne
    exact absurd h1 hne
  · intro _
    exact h1

theorem runOps_trackInv (ops : List Op) : ∀ w : World, trackInv w.st →
    trackInv (runOps w ops).st := by
  induction ops with
  | nil => intro w h; exact h
  | cons o rest ih => intro w h; exact ih (stepOp w o) (stepOp_trackInv w o h)

/-- C9: after any sequence of calls starting from the initial module state,
a non-empty tracked list implies the termination hooks were installed — every
registration is preceded by `registerCleanup()`. -/
theorem nonempty_registry_implies_hooks (fs0 : FSState) (ops : List Op)
    (h : getTempFiles (runOps ⟨fs0, initMod⟩ ops).st ≠ []) :
    (runOps ⟨fs0, initMod⟩ ops).st.cleanupRegistered = true :=
  runOps_trackInv ops ⟨fs0, initMod⟩ (fun hne => absurd rfl hne) h

/-- C9 (witness): a run with one tracked write has a non-empty registry and
the hooks installed. -/
theorem nonempty_registry_implies_hooks_witness :
    (runOps ⟨⟨[], [], [], [], []⟩, initMod⟩
        [Op.write (.vstr "x") (.vstr "") ⟨"/tmp", "temp-", true, 0o600, ","⟩
          "rr" "tt"]).st.cleanupRegistered = true :=
  nonempty_registry_implies_hooks ⟨[], [], [], [], []⟩
    [Op.write (.vstr "x") (.vstr "") ⟨"/tmp", "temp-", true, 0o600, ","⟩
      "rr" "tt"] (by decide)

/-! ### Witnesses -/

/-- C4 (witness): cleaning a path absent from an empty filesystem succeeds and
deletes it from the registry. -/
theorem cleanupSync_missing_path_returns_true_witness :
    cleanupSync ⟨[], [], [], [], []⟩ ⟨["/x"], true, 1⟩ "/x" =
      (⟨[], [], [], [], []⟩, ⟨setDel ["/x"] "/x", true, 1⟩, true) ∧
    ∀ fs2 st2 q, (cleanupSync fs2 st2 q).2.2 = true →
      cleanupSync (cleanupSync fs2 st2 q).1 (cleanupSync fs2 st2 q).2.1 q =
        ((cleanupSync fs2 st2 q).1, (cleanupSync fs2 st2 q).2.1, true) :=
  cleanupSync_missing_path_returns_true ⟨[], [], [], [], []⟩ ⟨["/x"], true, 1⟩ "/x"
    (by decide)

/-- C2 (witness): two tracked paths, one of which fails to remove — the call
returns 1, empties the registry, and a second call returns 0. -/
theorem cleanupAllSync_count_successes_witness :
    (cleanupAllSync ⟨["/t/a", "/t/b"], [], [], [], ["/t/b"]⟩
        ⟨["/t/a", "/t/b"], true, 1⟩).2.2 = 1 ∧
    getTempFiles (cleanupAllSync ⟨["/t/a", "/t/b"], [], [], [], ["/t/b"]⟩
        ⟨["/t/a", "/t/b"], true, 1⟩).2.1 = [] ∧
    (cleanupAllSync (cleanupAllSync ⟨["/t/a", "/t/b"], [], [], [], ["/t/b"]⟩
          ⟨["/t/a", "/t/b"], true, 1⟩).1
        (cleanupAllSync ⟨["/t/a", "/t/b"], [], [], [], ["/t/b"]⟩
          ⟨["/t/a", "/t/b"], true, 1⟩).2.1).2.2 = 0 := by
  have h := cleanupAllSync_count_successes ⟨["/t/a", "/t/b"], [], [], [], ["/t/b"]⟩
    ⟨["/t/a", "/t/b"], true, 1⟩ (by decide) (by decide)
  refine ⟨?_, h.2.1, ?_⟩
  · rw [h.1]
    decide
  · rw [h.2.2]

/-- C3 (witness): a write whose target path is in the write-failure oracle
leaves the module state (and hence the registry) untouched. -/
theorem tempWriteSync_io_failure_no_registration_witness :
    (tempWriteSync ⟨["/tmp"], ["/tmp"], [], ["/tmp/temp-tt-rr.txt"], []⟩ initMod
        (.vstr "x") (.vstr ".txt") ⟨"/tmp", "temp-", true, 0o600, ","⟩
        "rr" "tt").2.1 = initMod ∧
    (∃ msg, (tempWriteSync ⟨["/tmp"], ["/tmp"], [], ["/tmp/temp-tt-rr.txt"], []⟩ initMod
        (.vstr "x") (.vstr ".txt") ⟨"/tmp", "temp-", true, 0o600, ","⟩
        "rr" "tt").2.2 = .error ("Failed to write temporary file: " ++ msg)) ∧
    isTempFile (tempWriteSync ⟨["/tmp"], ["/tmp"], [], ["/tmp/temp-tt-rr.txt"], []⟩ initMod
        (.vstr "x") (.vstr ".txt") ⟨"/tmp", "temp-", true, 0o600, ","⟩
        "rr" "tt").2.1 (pathJoin "/tmp" ("temp-" ++ "tt" ++ "-" ++ "rr" ++ normalizeExt ".txt")) =
      isTempFile initMod (pathJoin "/tmp" ("temp-" ++ "tt" ++ "-" ++ "rr" ++ normalizeExt ".txt")) :=
  tempWriteSync_io_failure_no_registration
    ⟨["/tmp"], ["/tmp"], [], ["/tmp/temp-tt-rr.txt"], []⟩ initMod
    (.vstr "x") ".txt" ⟨"/tmp", "temp-", true, 0o600, ","⟩ "rr" "tt"
    (by decide) (Or.inr (by decide))

/-- C8 (witness): at concrete inputs, `txt` normalizes to `.txt`,
normalization is idempotent, and both spellings yield the same path. -/
theorem tempWriteSync_extension_normalization_witness :
    ("txt" ≠ "" → ∃ s, normalizeExt "txt" = "." ++ s) ∧
    normalizeExt (normalizeExt "txt") = normalizeExt "txt" ∧
    ∃ stem,
      (tempWriteSync ⟨["/tmp"], ["/tmp"], [], [], []⟩ initMod (.vstr "x")
          (.vstr "txt") ⟨"/tmp", "temp-", true, 0o600, ","⟩ "rr" "tt").2.2 =
        .ok (stem ++ ".txt") ∧
      (tempWriteSync ⟨["/tmp"], ["/tmp"], [], [], []⟩ initMod (.vstr "x")
          (.vstr ".txt") ⟨"/tmp", "temp-", true, 0o600, ","⟩ "rr" "tt").2.2 =
        .ok (stem ++ ".txt") :=
  tempWriteSync_extension_normalization ⟨["/tmp"], ["/tmp"], [], [], []⟩ initMod
    (.vstr "x") ⟨"/tmp", "temp-", true, 0o600, ","⟩ "rr" "tt" "txt"
    (by decide) (by decide) (by decide)

/-- C6 (witness): the pattern `pre-{random}.txt` yields `pre-abc123.txt`. -/
theorem tempWritePatternSync_first_occurrence_only_witness :
    (tempWritePatternSync ⟨["/tmp"], ["/tmp"], [], [], []⟩ initMod (.vstr "data")
        ("pre-" ++ "{random}" ++ ".txt") ⟨"/tmp", "temp-", true, 0o600, ","⟩
        "abc123" "zz").2.2 =
      .ok (pathJoin "/tmp" ("pre-" ++ "abc123" ++ ".txt")) :=
  tempWritePatternSync_first_occurrence_only ⟨["/tmp"], ["/tmp"], [], [], []⟩ initMod
    (.vstr "data") ⟨"/tmp", "temp-", true, 0o600, ","⟩ "abc123" "zz" "pre-" ".txt"
    (by decide) (by decide) (by decide) (by decide) (by decide)

/-- C7 (witness): a non-array input and `[42]` are rejected with the two
distinct validation errors. -/
theorem tempWriteCsvSync_first_row_dispatch_witness :
    tempWriteCsvSync ⟨["/tmp"], ["/tmp"], [], [], []⟩ initMod (.vstr "nope")
        ⟨"/tmp", "temp-", true, 0o600, ","⟩ "rr" "tt" =
      (⟨["/tmp"], ["/tmp"], [], [], []⟩, initMod, .error "CSV data must be an array") ∧
    tempWriteCsvSync ⟨["/tmp"], ["/tmp"], [], [], []⟩ initMod (.varr [.vnum 42])
        ⟨"/tmp", "temp-", true, 0o600, ","⟩ "rr" "tt" =
      (⟨["/tmp"], ["/tmp"], [], [], []⟩, initMod, .error "Invalid CSV data format") :=
  ⟨(tempWriteCsvSync_first_row_dispatch ⟨["/tmp"], ["/tmp"], [], [], []⟩ initMod
      ⟨"/tmp", "temp-", true, 0o600, ","⟩ "rr" "tt" (.vstr "nope")).1 rfl,
   (tempWriteCsvSync_first_row_dispatch ⟨["/tmp"], ["/tmp"], [], [], []⟩ initMod
      ⟨"/tmp", "temp-", true, 0o600, ","⟩ "rr" "tt" (.varr [.vnum 42])).2
     (.vnum 42) [] rfl rfl (by decide)⟩
